import Mathlib

/-
Verification of the DSP core of the Tone.js worklet layer.

Sources embedded here:
- src/Tone/component/filter/FeedbackCombFilterProcessor.ts
  (classes FeedbackCombFilterProcessor and ToneAudioWorkletProcessor)
- src/Tone/effect/BitCrusherProcessor.ts (class BitCrusherProcessor)
- src/Tone/effect/Freeverb.ts (class Freeverb) and the single-channel
  variant Freeverb1 (src/unnamed/part_000)

The classes DelayLine and SingleIOProcessor are imported by the sources
above but their files are not part of the repository snapshot; they are
modelled from the specification (sections 3, 4.1 and 4.2), as noted on
each such definition.

Audio samples and parameter values are embedded as rationals; the
JavaScript numbers of the source are IEEE doubles, and every concrete
quantity handled in the claims is exactly representable.
-/

namespace Tone

/-! ## DelayLine -/

/-- Modelled from the spec: the DelayLine data model (section 3; the file
core/worklet/DelayLine.ts is not under src/). A DelayLine owns one buffer
per channel of fixed capacity, zero-initialised. The per-channel buffer is
represented by the list of samples written so far, most recent first;
positions beyond the history read as the initial zeros. Reading at delay
d returns the sample written d steps before the most recent write, so the
observable behaviour of the circular buffer is captured for every read
the spec allows (delays clamped below capacity). -/
structure DelayLine where
  capacity : ℕ
  channels : ℕ
  buf : ℕ → List ℚ

/-- Reading position k of a write history (most recent first): the value
written k steps before the most recent write, or the initial zero fill
when fewer than k+1 writes have happened. -/
def histRead (l : List ℚ) (k : ℕ) : ℚ := l.getD k 0

/-- Construction as performed by the source call sites:
new DelayLine(size, channels) with zero-filled buffers and no
validation. -/
def DelayLine.new (capacity channels : ℕ) : DelayLine :=
  { capacity := capacity, channels := channels, buf := fun _ => [] }

/-- Modelled from the spec: DelayLine.write (section 4.1) stores the
sample at the cursor of the given channel and advances that cursor; in
the history representation this prepends the sample to the channel
history. Named push after the call in FeedbackCombFilterProcessor. -/
def DelayLine.push (dl : DelayLine) (channel : ℕ) (value : ℚ) : DelayLine :=
  { dl with buf := fun c => if c = channel then value :: dl.buf c else dl.buf c }

/-- Modelled from the spec: DelayLine.read (section 4.1). A non-negative
real delay below capacity is resolved by linear interpolation between the
two nearest integer delay positions; a delay at or above capacity is a
clamped read at capacity - 1, never a fault. Named get after the call in
FeedbackCombFilterProcessor. -/
def DelayLine.get (dl : DelayLine) (channel : ℕ) (delay : ℚ) : ℚ :=
  if (dl.capacity : ℚ) ≤ delay then
    histRead (dl.buf channel) (dl.capacity - 1)
  else
    let i : ℕ := Int.toNat ⌊delay⌋
    let frac : ℚ := Int.fract delay
    (1 - frac) * histRead (dl.buf channel) i + frac * histRead (dl.buf channel) (i + 1)

/-- Modelled from the spec: validated DelayLine construction (sections
4.1 and 7; the file core/worklet/DelayLine.ts is not under src/).
Capacity must satisfy capacity >= ceil(maxDelaySeconds * sampleRate) + 1;
violating this is a construction-time out-of-range error, not a silent
truncation. -/
def DelayLine.create (capacity channels : ℕ) (maxDelaySeconds : ℚ)
    (sampleRate : ℕ) : Except String DelayLine :=
  if (capacity : ℤ) < ⌈maxDelaySeconds * (sampleRate : ℚ)⌉ + 1 then
    Except.error "DelayLine capacity out of range"
  else
    Except.ok (DelayLine.new capacity channels)

/-! ## ToneAudioWorkletProcessor -/

/-- Construction options as consumed by the embedded constructors: only
the channelCount field is read (options.channelCount, falling back to 2
when absent). -/
structure ProcessorOptions where
  channelCount : Option ℕ

/-- State of ToneAudioWorkletProcessor
(src/Tone/component/filter/FeedbackCombFilterProcessor.ts, second class):
disposed flag, block size and sample rate. -/
structure ToneAudioWorkletProcessor where
  disposed : Bool
  blockSize : ℕ
  sampleRate : ℕ
deriving DecidableEq

/-- Constructor of ToneAudioWorkletProcessor: for every options value it
sets disposed := false, blockSize := 256 and sampleRate := 44100 (the
source hardcodes the sample rate because the AudioWorklet global scope is
unavailable). -/
def ToneAudioWorkletProcessor.construct (_options : ProcessorOptions) :
    ToneAudioWorkletProcessor :=
  { disposed := false, blockSize := 256, sampleRate := 44100 }

/-- Message handler installed by the ToneAudioWorkletProcessor
constructor: when the event data equals "dispose" the disposed flag is
set; every other message leaves the state unchanged. -/
def ToneAudioWorkletProcessor.onmessage (st : ToneAudioWorkletProcessor)
    (data : String) : ToneAudioWorkletProcessor :=
  if data = "dispose" then { st with disposed := true } else st

/-! ## SingleIOProcessor block loop -/

/-- Modelled from the spec: the per-channel part of the SingleIOProcessor
block loop (section 4.2; the file core/worklet/SingleIOProcessor.ts is
not under src/). Samples of one channel are fed to generate in strictly
increasing order, threading the node state; gen is the generate function
with the block-rate parameters already resolved for this block. -/
def processChannel {σ : Type} (gen : σ → ℚ → ℕ → ℚ × σ) (channel : ℕ)
    (inner : σ) : List ℚ → List ℚ × σ
  | [] => ([], inner)
  | s :: rest =>
    let out := gen inner s channel
    let outs := processChannel gen channel out.2 rest
    (out.1 :: outs.1, outs.2)

/-- Modelled from the spec: the SingleIOProcessor block loop (section
4.2, item 4; the file core/worklet/SingleIOProcessor.ts is not under
src/). The input block is one sample list per channel, of the block size
supplied by the host. A disposed node performs no processing and produces
silence of the same shape; otherwise every channel is processed in order,
threading the node state. -/
def processBlock {σ : Type} (gen : σ → ℚ → ℕ → ℚ × σ)
    (base : ToneAudioWorkletProcessor) (inner : σ)
    (input : List (List ℚ)) : List (List ℚ) × σ :=
  if base.disposed then
    (input.map (fun chBuf => chBuf.map (fun _ => 0)), inner)
  else
    let step := fun (acc : List (List ℚ) × σ) (p : ℕ × List ℚ) =>
      let outs := processChannel gen p.1 acc.2 p.2
      (acc.1 ++ [outs.1], outs.2)
    input.enum.foldl step ([], inner)

/-! ## FeedbackCombFilterProcessor -/

/-- State of FeedbackCombFilterProcessor
(src/Tone/component/filter/FeedbackCombFilterProcessor.ts): the inherited
base state plus the delay line. -/
structure FeedbackCombFilterProcessor where
  base : ToneAudioWorkletProcessor
  delayLine : DelayLine

/-- Constructor of FeedbackCombFilterProcessor: super(options), then
this.delayLine = new DelayLine(this.sampleRate, options.channelCount || 2). -/
def FeedbackCombFilterProcessor.construct (options : ProcessorOptions) :
    FeedbackCombFilterProcessor :=
  let base := ToneAudioWorkletProcessor.construct options
  { base := base
    delayLine := DelayLine.new base.sampleRate (options.channelCount.getD 2) }

/-- Embedding of FeedbackCombFilterProcessor.generate (lines 30-34):
reads the delayed sample at delayTime * sampleRate, pushes
input + delayedSample * feedback, and returns the delayed sample together
with the updated state. The parameters delayTime and feedback are the
k-rate values resolved for the current block. -/
def FeedbackCombFilterProcessor.generate (st : FeedbackCombFilterProcessor)
    (input : ℚ) (channel : ℕ) (delayTime feedback : ℚ) :
    ℚ × FeedbackCombFilterProcessor :=
  let delayedSample := st.delayLine.get channel (delayTime * (st.base.sampleRate : ℚ))
  (delayedSample,
    { st with delayLine := st.delayLine.push channel (input + delayedSample * feedback) })

/-- Iterated application of generate on one channel: state after n
samples of the input sequence x have been processed with constant k-rate
parameters. -/
def combRun (st0 : FeedbackCombFilterProcessor) (x : ℕ → ℚ)
    (delayTime feedback : ℚ) (channel : ℕ) : ℕ → FeedbackCombFilterProcessor
  | 0 => st0
  | n + 1 =>
    (FeedbackCombFilterProcessor.generate
      (combRun st0 x delayTime feedback channel n) (x n) channel delayTime feedback).2

/-- Output sample at index n of the run. -/
def combOutput (st0 : FeedbackCombFilterProcessor) (x : ℕ → ℚ)
    (delayTime feedback : ℚ) (channel : ℕ) (n : ℕ) : ℚ :=
  (FeedbackCombFilterProcessor.generate
    (combRun st0 x delayTime feedback channel n) (x n) channel delayTime feedback).1

/-! ## BitCrusherProcessor -/

/-- Embedding of BitCrusherProcessor.generate
(src/Tone/effect/BitCrusherProcessor.ts, lines 18-22):
step = 0.5 ^ (bits - 1); output = step * floor(input / step + 0.5).
The bits parameter is declared with range 1 to 16; it is embedded as a
natural number (a bit depth). The function takes no processor state:
the quantisation is a stateless per-sample map. -/
def BitCrusherProcessor.generate (input : ℚ) (bits : ℕ) : ℚ :=
  let step : ℚ := (1 / 2) ^ (bits - 1)
  step * (⌊input / step + 1 / 2⌋ : ℤ)

/-- Constructor of BitCrusherProcessor: the class declares no constructor
of its own, so it inherits the ToneAudioWorkletProcessor constructor
through SingleIOProcessor unchanged. -/
def BitCrusherProcessor.construct (options : ProcessorOptions) :
    ToneAudioWorkletProcessor :=
  ToneAudioWorkletProcessor.construct options

/-! ## Freeverb and Freeverb1 -/

/-- Comb filter delay tunings shared by Freeverb
(src/Tone/effect/Freeverb.ts, line 18) and Freeverb1
(src/unnamed/part_000, line 18). -/
def combFilterTunings : List ℚ :=
  [1557 / 44100, 1617 / 44100, 1491 / 44100, 1422 / 44100,
   1277 / 44100, 1356 / 44100, 1188 / 44100, 1116 / 44100]

/-- Allpass filter frequencies shared by both Freeverb variants. -/
def allpassFilterFrequencies : List ℚ := [225, 556, 441, 341]

/-- Observable state of one LowpassCombFilter as far as the Freeverb
constructors and accessors manipulate it: its dampening (cutoff) value
and its fixed delay-time tuning. -/
structure LowpassCombFilter where
  dampening : ℚ
  delayTime : ℚ

/-- Signal sources whose connect calls the Freeverb constructors issue
per comb filter. -/
inductive FreeverbSource
  | roomSize
  | wetGain
deriving DecidableEq

/-- Connection targets of those connect calls: the resonance input and
the input gain of the comb filter at a given index. -/
inductive FreeverbTarget
  | resonance (index : ℕ)
  | inputGain (index : ℕ)
deriving DecidableEq

/-- Wiring-relevant state of a constructed Freeverb (or Freeverb1)
instance: the comb filter bank and the list of connect edges issued by
the constructor, in program order. The audio routing of the comb outputs
into the allpass chains differs between the two variants and carries no
information about the shared controls, so it is not recorded here. -/
structure FreeverbState where
  roomSizeValue : ℚ
  wetGainValue : ℚ
  combFilters : List LowpassCombFilter
  connections : List (FreeverbSource × FreeverbTarget)

/-- Embedding of the Freeverb constructor comb-filter loop
(src/Tone/effect/Freeverb.ts, lines 105-119): for each tuning, create a
LowpassCombFilter with the shared dampening option and that delay time,
connect wetGain to its input gain and roomSize to its resonance. -/
def Freeverb.construct (roomSize dampening wetGain : ℚ) : FreeverbState :=
  combFilterTunings.enum.foldl
    (fun fv p =>
      let lfpf : LowpassCombFilter := { dampening := dampening, delayTime := p.2 }
      { fv with
        combFilters := fv.combFilters ++ [lfpf]
        connections := fv.connections ++
          [(FreeverbSource.wetGain, FreeverbTarget.inputGain p.1),
           (FreeverbSource.roomSize, FreeverbTarget.resonance p.1)] })
    { roomSizeValue := roomSize, wetGainValue := wetGain
      combFilters := [], connections := [] }

/-- Embedding of the Freeverb1 constructor comb-filter loop
(src/unnamed/part_000, lines 92-106): identical comb creation and
control wiring; only the audio routing (a serial chain through the
effect send instead of left/right split) differs. -/
def Freeverb1.construct (roomSize dampening wetGain : ℚ) : FreeverbState :=
  combFilterTunings.enum.foldl
    (fun fv p =>
      let lfpf : LowpassCombFilter := { dampening := dampening, delayTime := p.2 }
      { fv with
        combFilters := fv.combFilters ++ [lfpf]
        connections := fv.connections ++
          [(FreeverbSource.wetGain, FreeverbTarget.inputGain p.1),
           (FreeverbSource.roomSize, FreeverbTarget.resonance p.1)] })
    { roomSizeValue := roomSize, wetGainValue := wetGain
      combFilters := [], connections := [] }

/-- Embedding of the dampening setter shared by both variants:
this._combFilters.forEach(c => c.dampening = d). -/
def FreeverbState.setDampening (fv : FreeverbState) (d : ℚ) : FreeverbState :=
  { fv with combFilters := fv.combFilters.map (fun c => { c with dampening := d }) }

/-! ## Claim theorems -/

/-- C1: one call to the feedback comb filter generate first reads the
delayed sample at delay delayTime * sampleRate on the given channel,
then writes input + delayed * feedback into that channel of the delay
line, and returns the delayed sample itself (not the fed-back sum); the
base state is untouched. -/
theorem c1_comb_generate_contract (st : FeedbackCombFilterProcessor)
    (input : ℚ) (channel : ℕ) (delayTime feedback : ℚ) :
    (st.generate input channel delayTime feedback).1
      = st.delayLine.get channel (delayTime * (st.base.sampleRate : ℚ))
    ∧ (st.generate input channel delayTime feedback).2.delayLine
      = st.delayLine.push channel
          (input + st.delayLine.get channel (delayTime * (st.base.sampleRate : ℚ)) * feedback)
    ∧ (st.generate input channel delayTime feedback).2.base = st.base :=
  ⟨rfl, rfl, rfl⟩

/-- C4: the bit reducer generate returns step * floor(input / step + 1/2)
with step = 2 ^ -(bits - 1), a stateless round-half-up to the nearest
quantisation level; in particular with bits = 1 (step = 1) input 0.3
yields 0 and input 0.6 yields 1. -/
theorem c4_bitcrusher_rounds_half_up (input : ℚ) (bits : ℕ) :
    BitCrusherProcessor.generate input bits
      = ((2 : ℚ) ^ (bits - 1))⁻¹ * (⌊input / ((2 : ℚ) ^ (bits - 1))⁻¹ + 1 / 2⌋ : ℤ)
    ∧ BitCrusherProcessor.generate (3 / 10) 1 = 0
    ∧ BitCrusherProcessor.generate (6 / 10) 1 = 1 := by
  refine ⟨?_, ?_, ?_⟩
  · simp only [BitCrusherProcessor.generate, one_div, inv_pow]
  · norm_num [BitCrusherProcessor.generate]
  · norm_num [BitCrusherProcessor.generate]

/-- C6: applying the bit reducer twice with the same bits value gives the
same result as applying it once; the quantisation is a projection. -/
theorem c6_bitcrusher_idempotent (input : ℚ) (bits : ℕ) :
    BitCrusherProcessor.generate (BitCrusherProcessor.generate input bits) bits
      = BitCrusherProcessor.generate input bits := by
  simp only [BitCrusherProcessor.generate]
  have hs0 : (0 : ℚ) < (1 / 2) ^ (bits - 1) := by positivity
  have hcancel : ∀ k : ℤ, (1 / 2 : ℚ) ^ (bits - 1) * (k : ℚ) / (1 / 2) ^ (bits - 1) = (k : ℚ) :=
    fun k => by rw [mul_comm, mul_div_cancel_right₀ _ (ne_of_gt hs0)]
  have hfloor : ∀ k : ℤ, ⌊(k : ℚ) + 1 / 2⌋ = k := fun k => by
    rw [add_comm, Int.floor_add_int]
    norm_num
  rw [hcancel, hfloor]

/-- C10: for every construction options value the shared
ToneAudioWorkletProcessor constructor (used by both the feedback comb
filter and the bit crusher) fixes sampleRate to 44100 and blockSize to
256, and consequently the feedback comb filter generate converts
delayTime to samples by multiplying with 44100. -/
theorem c10_fixed_sample_rate (options : ProcessorOptions)
    (input : ℚ) (channel : ℕ) (delayTime feedback : ℚ) :
    (ToneAudioWorkletProcessor.construct options).sampleRate = 44100
    ∧ (ToneAudioWorkletProcessor.construct options).blockSize = 256
    ∧ (BitCrusherProcessor.construct options).sampleRate = 44100
    ∧ (BitCrusherProcessor.construct options).blockSize = 256
    ∧ (FeedbackCombFilterProcessor.construct options).base.sampleRate = 44100
    ∧ (FeedbackCombFilterProcessor.construct options).base.blockSize = 256
    ∧ ((FeedbackCombFilterProcessor.construct options).generate
        input channel delayTime feedback).1
      = (FeedbackCombFilterProcessor.construct options).delayLine.get
          channel (delayTime * 44100) := by
  refine ⟨rfl, rfl, rfl, rfl, rfl, rfl, ?_⟩
  show (FeedbackCombFilterProcessor.construct options).delayLine.get
      channel (delayTime * ((44100 : ℕ) : ℚ)) = _
  norm_num

/-- Connection list produced by the Freeverb constructor loop: for each
of the eight comb filter indices, a wetGain edge into the input gain and
a roomSize edge into the resonance, in program order. -/
def freeverbExpectedConnections : List (FreeverbSource × FreeverbTarget) :=
  [(FreeverbSource.wetGain, FreeverbTarget.inputGain 0),
   (FreeverbSource.roomSize, FreeverbTarget.resonance 0),
   (FreeverbSource.wetGain, FreeverbTarget.inputGain 1),
   (FreeverbSource.roomSize, FreeverbTarget.resonance 1),
   (FreeverbSource.wetGain, FreeverbTarget.inputGain 2),
   (FreeverbSource.roomSize, FreeverbTarget.resonance 2),
   (FreeverbSource.wetGain, FreeverbTarget.inputGain 3),
   (FreeverbSource.roomSize, FreeverbTarget.resonance 3),
   (FreeverbSource.wetGain, FreeverbTarget.inputGain 4),
   (FreeverbSource.roomSize, FreeverbTarget.resonance 4),
   (FreeverbSource.wetGain, FreeverbTarget.inputGain 5),
   (FreeverbSource.roomSize, FreeverbTarget.resonance 5),
   (FreeverbSource.wetGain, FreeverbTarget.inputGain 6),
   (FreeverbSource.roomSize, FreeverbTarget.resonance 6),
   (FreeverbSource.wetGain, FreeverbTarget.inputGain 7),
   (FreeverbSource.roomSize, FreeverbTarget.resonance 7)]

lemma freeverb_connections_eq (r d w : ℚ) :
    (Freeverb.construct r d w).connections = freeverbExpectedConnections := rfl

lemma freeverb1_connections_eq (r d w : ℚ) :
    (Freeverb1.construct r d w).connections = freeverbExpectedConnections := rfl

lemma freeverb_setDampening_eq (r d w d2 : ℚ) :
    ((Freeverb.construct r d w).setDampening d2).combFilters.map
      (fun c => c.dampening) = List.replicate 8 d2 := rfl

lemma freeverb1_setDampening_eq (r d w d2 : ℚ) :
    ((Freeverb1.construct r d w).setDampening d2).combFilters.map
      (fun c => c.dampening) = List.replicate 8 d2 := rfl

/-- C8: in both Freeverb variants the constructor creates eight comb
filters, connects the shared roomSize control to the resonance of every
one of them, and the dampening setter assigns the new cutoff value to
every one of the eight comb filters. -/
theorem c8_freeverb_shared_controls (roomSize dampening wetGain d2 : ℚ)
    (i : ℕ) (hi : i < 8) :
    combFilterTunings.length = 8
    ∧ (Freeverb.construct roomSize dampening wetGain).combFilters.length = 8
    ∧ (Freeverb1.construct roomSize dampening wetGain).combFilters.length = 8
    ∧ (FreeverbSource.roomSize, FreeverbTarget.resonance i)
        ∈ (Freeverb.construct roomSize dampening wetGain).connections
    ∧ (FreeverbSource.roomSize, FreeverbTarget.resonance i)
        ∈ (Freeverb1.construct roomSize dampening wetGain).connections
    ∧ ((Freeverb.construct roomSize dampening wetGain).setDampening d2).combFilters.map
        (fun c => c.dampening) = List.replicate 8 d2
    ∧ ((Freeverb1.construct roomSize dampening wetGain).setDampening d2).combFilters.map
        (fun c => c.dampening) = List.replicate 8 d2 := by
  refine ⟨rfl, rfl, rfl, ?_, ?_, freeverb_setDampening_eq _ _ _ _,
    freeverb1_setDampening_eq _ _ _ _⟩
  · rw [freeverb_connections_eq]
    interval_cases i <;> simp [freeverbExpectedConnections]
  · rw [freeverb1_connections_eq]
    interval_cases i <;> simp [freeverbExpectedConnections]

/-- Witness for C8 at comb filter index 3 and the default option
values. -/
theorem c8_freeverb_shared_controls_witness :
    3 < 8
    ∧ (FreeverbSource.roomSize, FreeverbTarget.resonance 3)
        ∈ (Freeverb.construct (7/10) 3000 1).connections :=
  ⟨by norm_num,
   (c8_freeverb_shared_controls (7/10) 3000 1 500 3 (by norm_num)).2.2.2.1⟩

lemma onmessage_preserves_disposed (st : ToneAudioWorkletProcessor)
    (m : String) (h : st.disposed = true) :
    (st.onmessage m).disposed = true := by
  unfold ToneAudioWorkletProcessor.onmessage
  split <;> simp [h]

lemma foldl_onmessage_disposed (msgs : List String)
    (st : ToneAudioWorkletProcessor) (h : st.disposed = true) :
    (msgs.foldl ToneAudioWorkletProcessor.onmessage st).disposed = true := by
  induction msgs generalizing st with
  | nil => exact h
  | cons m rest ih => exact ih _ (onmessage_preserves_disposed st m h)

/-- C5: once the dispose signal has been received the processor is
permanently inert. Receiving "dispose" sets the disposed flag; no later
message sequence ever clears it; a second dispose signal is a no-op on
the state; and every block request on a disposed processor returns
silence of the same shape as the input and leaves the node state
untouched. -/
theorem c5_disposed_inert {σ : Type} (gen : σ → ℚ → ℕ → ℚ × σ)
    (base : ToneAudioWorkletProcessor) (inner : σ)
    (input : List (List ℚ)) (msgs : List String)
    (st : ToneAudioWorkletProcessor) (h : base.disposed = true) :
    (st.onmessage "dispose").disposed = true
    ∧ (msgs.foldl ToneAudioWorkletProcessor.onmessage base).disposed = true
    ∧ base.onmessage "dispose" = base
    ∧ (processBlock gen base inner input).1
      = input.map (fun chBuf => chBuf.map (fun _ => 0))
    ∧ (processBlock gen base inner input).2 = inner := by
  refine ⟨by simp [ToneAudioWorkletProcessor.onmessage],
    foldl_onmessage_disposed msgs base h, ?_, ?_, ?_⟩
  · cases base with
    | mk d b s =>
      simp only [ToneAudioWorkletProcessor.disposed] at h
      subst h
      simp [ToneAudioWorkletProcessor.onmessage]
  · simp [processBlock, h]
  · simp [processBlock, h]

/-- Witness for C5: a concrete disposed bit-crusher style node yields an
all-zero block for a concrete two-channel input. -/
theorem c5_disposed_inert_witness :
    (ToneAudioWorkletProcessor.mk true 256 44100).disposed = true
    ∧ (processBlock (fun (s : Unit) x _ => (BitCrusherProcessor.generate x 12, s))
        (ToneAudioWorkletProcessor.mk true 256 44100) () [[1, 2], [3, 4]]).1
      = [[0, 0], [0, 0]] :=
  ⟨rfl, by
    have h := (c5_disposed_inert
      (fun (s : Unit) x _ => (BitCrusherProcessor.generate x 12, s))
      (ToneAudioWorkletProcessor.mk true 256 44100) () [[1, 2], [3, 4]] []
      (ToneAudioWorkletProcessor.mk false 256 44100) rfl).2.2.2.1
    simpa using h⟩

/-- C9 counterexample: the feedback comb filter is constructed with a
delay line of capacity this.sampleRate = 44100 samples, which is NOT at
least ceil(1 * sampleRate) + 1 = 44101; the claim fails on the code at
the construction performed by the source (options without an explicit
channel count). -/
theorem c9_counterexample :
    (FeedbackCombFilterProcessor.construct ⟨none⟩).delayLine.capacity = 44100
    ∧ ¬ ((44100 : ℤ) ≥ ⌈(1 : ℚ) * 44100⌉ + 1) :=
  ⟨rfl, by norm_num⟩

/-- C9 amended: the spec-modelled validated DelayLine construction
rejects any capacity below ceil(maxDelaySeconds * sampleRate) + 1 with an
out-of-range error; the feedback comb filter however passes capacity
sampleRate = 44100 = ceil(1 * sampleRate), one sample short of that
requirement for its 1 second maximum delayTime, so its configuration is
exactly the one the validated constructor rejects (a read at the maximum
delay is clamped instead). -/
theorem c9_capacity_validation (capacity channels : ℕ)
    (maxDelaySeconds : ℚ) (sampleRate : ℕ) (options : ProcessorOptions)
    (h : (capacity : ℤ) < ⌈maxDelaySeconds * (sampleRate : ℚ)⌉ + 1) :
    DelayLine.create capacity channels maxDelaySeconds sampleRate
      = Except.error "DelayLine capacity out of range"
    ∧ (FeedbackCombFilterProcessor.construct options).delayLine.capacity = 44100
    ∧ (44100 : ℤ) = ⌈(1 : ℚ) * 44100⌉
    ∧ DelayLine.create 44100 2 1 44100
      = Except.error "DelayLine capacity out of range" := by
  refine ⟨?_, rfl, by norm_num, ?_⟩
  · unfold DelayLine.create
    rw [if_pos h]
  · norm_num [DelayLine.create]

/-- Witness for C9 at a concretely undersized capacity. -/
theorem c9_capacity_validation_witness :
    ((100 : ℕ) : ℤ) < ⌈(1 : ℚ) * ((44100 : ℕ) : ℚ)⌉ + 1
    ∧ DelayLine.create 100 2 1 44100
      = Except.error "DelayLine capacity out of range" :=
  ⟨by norm_num,
   (c9_capacity_validation 100 2 1 44100 ⟨none⟩ (by norm_num)).1⟩

/-! ## Boundedness of the feedback comb filter -/

/-- Every value readable from any channel buffer of the delay line
(including the zero fill) is bounded by M in absolute value. -/
def DLBounded (dl : DelayLine) (M : ℚ) : Prop :=
  ∀ c k, |histRead (dl.buf c) k| ≤ M

lemma dlBounded_new (capacity channels : ℕ) (M : ℚ) (hM : 0 ≤ M) :
    DLBounded (DelayLine.new capacity channels) M := by
  intro c k
  simp [DelayLine.new, histRead, hM]

lemma dlBounded_get (dl : DelayLine) (M : ℚ) (channel : ℕ) (delay : ℚ)
    (hb : DLBounded dl M) :
    |dl.get channel delay| ≤ M := by
  unfold DelayLine.get
  split
  · exact hb _ _
  · have hf0 : 0 ≤ Int.fract delay := Int.fract_nonneg delay
    have hf1 : Int.fract delay < 1 := Int.fract_lt_one delay
    have ha := hb channel (Int.toNat ⌊delay⌋)
    have hbb := hb channel (Int.toNat ⌊delay⌋ + 1)
    calc |(1 - Int.fract delay) * histRead (dl.buf channel) (Int.toNat ⌊delay⌋)
            + Int.fract delay * histRead (dl.buf channel) (Int.toNat ⌊delay⌋ + 1)|
        ≤ |(1 - Int.fract delay) * histRead (dl.buf channel) (Int.toNat ⌊delay⌋)|
            + |Int.fract delay * histRead (dl.buf channel) (Int.toNat ⌊delay⌋ + 1)| :=
          abs_add _ _
      _ = (1 - Int.fract delay) * |histRead (dl.buf channel) (Int.toNat ⌊delay⌋)|
            + Int.fract delay * |histRead (dl.buf channel) (Int.toNat ⌊delay⌋ + 1)| := by
          rw [abs_mul, abs_mul, abs_of_nonneg (by linarith), abs_of_nonneg hf0]
      _ ≤ (1 - Int.fract delay) * M + Int.fract delay * M := by
          have h1 : (0 : ℚ) ≤ 1 - Int.fract delay := by linarith
          gcongr
      _ = M := by ring

lemma dlBounded_push (dl : DelayLine) (M : ℚ) (channel : ℕ) (v : ℚ)
    (hb : DLBounded dl M) (hv : |v| ≤ M) :
    DLBounded (dl.push channel v) M := by
  intro c k
  unfold DelayLine.push histRead
  simp only
  by_cases hc : c = channel
  · rw [if_pos hc]
    cases k with
    | zero => simpa using hv
    | succ k => exact hb c k
  · rw [if_neg hc]
    exact hb c k

lemma comb_run_bounded (options : ProcessorOptions) (x : ℕ → ℚ)
    (B delayTime feedback : ℚ) (channel : ℕ)
    (hfb0 : 0 ≤ feedback) (hfb1 : feedback < 1)
    (hB : 0 ≤ B) (hx : ∀ n, |x n| ≤ B) (n : ℕ) :
    DLBounded (combRun (FeedbackCombFilterProcessor.construct options)
      x delayTime feedback channel n).delayLine (B / (1 - feedback)) := by
  have hden : (0 : ℚ) < 1 - feedback := by linarith
  have hM : 0 ≤ B / (1 - feedback) := div_nonneg hB (le_of_lt hden)
  induction n with
  | zero =>
    exact dlBounded_new _ _ _ hM
  | succ n ih =>
    show DLBounded ((FeedbackCombFilterProcessor.generate _ _ _ _ _).2).delayLine _
    simp only [FeedbackCombFilterProcessor.generate]
    apply dlBounded_push _ _ _ _ ih
    have hy := dlBounded_get _ _ channel
      (delayTime * (((combRun (FeedbackCombFilterProcessor.construct options)
        x delayTime feedback channel n).base.sampleRate : ℕ) : ℚ)) ih
    have hxn := hx n
    have hMeq : B / (1 - feedback) * (1 - feedback) = B :=
      div_mul_cancel₀ B (ne_of_gt hden)
    set g : ℚ := (combRun (FeedbackCombFilterProcessor.construct options)
      x delayTime feedback channel n).delayLine.get channel
      (delayTime * (((combRun (FeedbackCombFilterProcessor.construct options)
        x delayTime feedback channel n).base.sampleRate : ℕ) : ℚ)) with hgdef
    calc |x n + g * feedback|
        ≤ |x n| + |g * feedback| := abs_add _ _
      _ = |x n| + |g| * feedback := by rw [abs_mul, abs_of_nonneg hfb0]
      _ ≤ B + B / (1 - feedback) * feedback := by gcongr
      _ ≤ B / (1 - feedback) := by nlinarith

/-- C3: with feedback in the range 0 to 0.9999 and every input sample
bounded by B, every output sample of the feedback comb filter and every
value stored in its delay line stays within B / (1 - feedback) for
arbitrarily many samples; the recirculation never grows without bound. -/
theorem c3_comb_stability (options : ProcessorOptions) (x : ℕ → ℚ)
    (B delayTime feedback : ℚ) (channel : ℕ)
    (hfb0 : 0 ≤ feedback) (hfb1 : feedback ≤ 0.9999)
    (hx : ∀ n, |x n| ≤ B) (n : ℕ) :
    |combOutput (FeedbackCombFilterProcessor.construct options)
        x delayTime feedback channel n| ≤ B / (1 - feedback)
    ∧ ∀ c k, |histRead ((combRun (FeedbackCombFilterProcessor.construct options)
        x delayTime feedback channel n).delayLine.buf c) k|
          ≤ B / (1 - feedback) := by
  have hB : 0 ≤ B := le_trans (abs_nonneg (x 0)) (hx 0)
  have hfb1' : feedback < 1 := lt_of_le_of_lt hfb1 (by norm_num)
  have hden : (0 : ℚ) < 1 - feedback := by linarith
  have hM : 0 ≤ B / (1 - feedback) := div_nonneg hB (le_of_lt hden)
  have hinv := comb_run_bounded options x B delayTime feedback channel
    hfb0 hfb1' hB hx n
  exact ⟨dlBounded_get _ _ _ _ hinv, hinv⟩

/-- Witness for C3 with constant unit input, feedback 1/2 and the bound
B = 1 at sample index 2. -/
theorem c3_comb_stability_witness :
    (0 : ℚ) ≤ 1/2 ∧ (1/2 : ℚ) ≤ 0.9999 ∧ (∀ _ : ℕ, |(1 : ℚ)| ≤ 1)
    ∧ |combOutput (FeedbackCombFilterProcessor.construct ⟨none⟩)
        (fun _ => 1) (1/10) (1/2) 0 2| ≤ 1 / (1 - 1/2) :=
  ⟨by norm_num, by norm_num, fun _ => by norm_num,
   (c3_comb_stability ⟨none⟩ (fun _ => 1) 1 (1/10) (1/2) 0
     (by norm_num) (by norm_num) (fun _ => by norm_num) 2).1⟩

/-! ## Quantisation error of the bit reducer -/

lemma round_half_up_nearest (s x : ℚ) (hs : 0 < s) (m : ℤ) :
    |s * (⌊x / s + 1 / 2⌋ : ℚ) - x| ≤ |s * (m : ℚ) - x| := by
  set t : ℚ := x / s with ht
  have hx : x = s * t := by
    rw [ht, mul_comm, div_mul_cancel₀ x (ne_of_gt hs)]
  set k : ℤ := ⌊t + 1 / 2⌋ with hk
  have hk1 : (k : ℚ) ≤ t + 1 / 2 := Int.floor_le _
  have hk2 : t + 1 / 2 < (k : ℚ) + 1 := Int.lt_floor_add_one _
  have habs : |(k : ℚ) - t| ≤ |(m : ℚ) - t| := by
    have hkt : |(k : ℚ) - t| ≤ 1 / 2 := abs_le.mpr ⟨by linarith, by linarith⟩
    rcases lt_trichotomy m k with h | h | h
    · have hm : (m : ℚ) + 1 ≤ (k : ℚ) := by exact_mod_cast Int.add_one_le_iff.mpr h
      have hge : t - (m : ℚ) ≥ 1 / 2 := by linarith
      have : |(m : ℚ) - t| = t - (m : ℚ) := by
        rw [abs_sub_comm]
        exact abs_of_nonneg (by linarith)
      linarith [hkt, this.ge]
    · rw [h]
    · have hm : (k : ℚ) + 1 ≤ (m : ℚ) := by exact_mod_cast Int.add_one_le_iff.mpr h
      have hge : (m : ℚ) - t ≥ 1 / 2 := by linarith
      have : |(m : ℚ) - t| = (m : ℚ) - t := abs_of_nonneg (by linarith)
      linarith [hkt, this.ge]
  have e1 : s * (k : ℚ) - x = s * ((k : ℚ) - t) := by rw [hx]; ring
  have e2 : s * (m : ℚ) - x = s * ((m : ℚ) - t) := by rw [hx]; ring
  rw [e1, e2, abs_mul, abs_mul, abs_of_pos hs]
  exact mul_le_mul_of_nonneg_left habs (le_of_lt hs)

/-- C7: for a fixed input sample and bit counts b1 < b2 inside the
declared range 1 to 16, the quantisation error of the bit reducer at b2
is no larger than at b1: the coarse quantisation grid is a subset of the
fine one, and rounding half up picks a nearest grid point. -/
theorem c7_bitcrusher_error_monotone (x : ℚ) (b1 b2 : ℕ)
    (hb1 : 1 ≤ b1) (hb12 : b1 < b2) (hb16 : b2 ≤ 16) :
    |BitCrusherProcessor.generate x b2 - x|
      ≤ |BitCrusherProcessor.generate x b1 - x| := by
  simp only [BitCrusherProcessor.generate]
  have hs2 : (0 : ℚ) < (1 / 2) ^ (b2 - 1) := by positivity
  have hsplit : b2 - 1 = (b1 - 1) + (b2 - b1) := by omega
  have hrel : ((1 : ℚ) / 2) ^ (b1 - 1)
      = (1 / 2) ^ (b2 - 1) * 2 ^ (b2 - b1) := by
    rw [hsplit, pow_add, mul_assoc, ← mul_pow]
    norm_num
  have key : ((1 : ℚ) / 2) ^ (b1 - 1) * (⌊x / (1 / 2) ^ (b1 - 1) + 1 / 2⌋ : ℚ)
      = (1 / 2) ^ (b2 - 1)
        * ((((2 : ℤ) ^ (b2 - b1) * ⌊x / (1 / 2) ^ (b1 - 1) + 1 / 2⌋ : ℤ)) : ℚ) := by
    push_cast
    rw [hrel]
    ring
  rw [key]
  exact round_half_up_nearest _ x hs2 _

/-- Witness for C7 at input 0.3 with bit counts 1 and 2. -/
theorem c7_bitcrusher_error_monotone_witness :
    (1 : ℕ) ≤ 1 ∧ (1 : ℕ) < 2 ∧ (2 : ℕ) ≤ 16
    ∧ |BitCrusherProcessor.generate (3 / 10) 2 - 3 / 10|
        ≤ |BitCrusherProcessor.generate (3 / 10) 1 - 3 / 10| :=
  ⟨le_refl 1, by norm_num, by norm_num,
   c7_bitcrusher_error_monotone (3 / 10) 1 2 (le_refl 1) (by norm_num) (by norm_num)⟩

/-! ## End-to-end impulse response of the feedback comb filter -/

/-- Unit impulse input: sample 1 at index 0 followed by zeros. -/
def combImpulse : ℕ → ℚ := fun n => if n = 0 then 1 else 0

/-- Feedback comb filter state posited by the end-to-end scenario: a
fresh processor at the scenario sample rate 48000 with the matching
delay-line capacity (the shipped constructor pins the rate to 44100, see
C10; the scenario fixes 48000, so the sampleRate field is set to that
value here and the delay line is sized by it exactly as the constructor
sizes it from this.sampleRate). -/
def c2State : FeedbackCombFilterProcessor :=
  { base := { disposed := false, blockSize := 256, sampleRate := 48000 }
    delayLine := DelayLine.new 48000 2 }

/-- Scenario run: delayTime 0.01, feedback 0.5, channel 0. -/
def c2Run (n : ℕ) : FeedbackCombFilterProcessor :=
  combRun c2State combImpulse (1 / 100) (1 / 2) 0 n

/-- Scenario output sample at index n. -/
def c2Output (n : ℕ) : ℚ :=
  combOutput c2State combImpulse (1 / 100) (1 / 2) 0 n

/-- Value written into the delay line at step n of the scenario. -/
def c2Write (n : ℕ) : ℚ := combImpulse n + c2Output n * (1 / 2)

lemma c2Run_base (n : ℕ) : (c2Run n).base = c2State.base := by
  induction n with
  | zero => rfl
  | succ n ih => exact ih

lemma c2Run_capacity (n : ℕ) : (c2Run n).delayLine.capacity = 48000 := by
  induction n with
  | zero => rfl
  | succ n ih => exact ih

lemma c2Run_succ_buf (n : ℕ) :
    (c2Run (n + 1)).delayLine.buf 0 = c2Write n :: (c2Run n).delayLine.buf 0 := rfl

lemma c2Run_buf_length (n : ℕ) : ((c2Run n).delayLine.buf 0).length = n := by
  induction n with
  | zero => rfl
  | succ n ih => rw [c2Run_succ_buf, List.length_cons, ih]

lemma c2_hist_oob (n k : ℕ) (h : n ≤ k) :
    histRead ((c2Run n).delayLine.buf 0) k = 0 :=
  List.getD_eq_default _ _ (le_trans (le_of_eq (c2Run_buf_length n)) h)

lemma c2_hist_lookup (n : ℕ) : ∀ k, k < n →
    histRead ((c2Run n).delayLine.buf 0) k = c2Write (n - 1 - k) := by
  induction n with
  | zero => intro k hk; omega
  | succ n ih =>
    intro k hk
    rw [c2Run_succ_buf]
    cases k with
    | zero => rfl
    | succ k =>
      have hk' : k < n := by omega
      have harg : n + 1 - 1 - (k + 1) = n - 1 - k := by omega
      rw [harg]
      exact ih k hk'

lemma c2Output_eq_hist (n : ℕ) :
    c2Output n = histRead ((c2Run n).delayLine.buf 0) 480 := by
  have hbase := c2Run_base n
  have hcap := c2Run_capacity n
  show (FeedbackCombFilterProcessor.generate (c2Run n) (combImpulse n) 0
    (1 / 100) (1 / 2)).1 = _
  simp only [FeedbackCombFilterProcessor.generate]
  rw [hbase]
  show (c2Run n).delayLine.get 0 (1 / 100 * ((48000 : ℕ) : ℚ)) = _
  have hdelay : (1 / 100 : ℚ) * ((48000 : ℕ) : ℚ) = 480 := by norm_num
  rw [hdelay]
  unfold DelayLine.get
  rw [hcap]
  have hnotle : ¬ ((48000 : ℕ) : ℚ) ≤ 480 := by norm_num
  rw [if_neg hnotle]
  have hfloor : ⌊(480 : ℚ)⌋ = 480 := by norm_num
  have hfract : Int.fract (480 : ℚ) = 0 := by
    rw [Int.fract, hfloor]
    norm_num
  rw [hfract, hfloor]
  show (1 - 0) * histRead ((c2Run n).delayLine.buf 0) (Int.toNat 480)
    + 0 * histRead ((c2Run n).delayLine.buf 0) (Int.toNat 480 + 1) = _
  have htn : Int.toNat 480 = 480 := rfl
  rw [htn]
  ring

lemma c2Output_early (n : ℕ) (h : n ≤ 480) : c2Output n = 0 := by
  rw [c2Output_eq_hist]
  exact c2_hist_oob n 480 h

lemma c2Output_recurrence (n : ℕ) (h : 481 ≤ n) :
    c2Output n = combImpulse (n - 481) + c2Output (n - 481) * (1 / 2) := by
  rw [c2Output_eq_hist]
  have hlt : 480 < n := h
  rw [c2_hist_lookup n 480 hlt]
  have harg : n - 1 - 480 = n - 481 := by omega
  rw [harg]
  rfl

lemma c2Output_band1 (n : ℕ) (h1 : 481 ≤ n) (h2 : n ≤ 961) :
    c2Output n = if n = 481 then 1 else 0 := by
  rw [c2Output_recurrence n h1]
  have hm : n - 481 ≤ 480 := by omega
  rw [c2Output_early (n - 481) hm]
  by_cases hn : n = 481
  · subst hn
    simp [combImpulse]
  · have : n - 481 ≠ 0 := by omega
    simp [combImpulse, this, hn]

lemma c2Output_band2 (n : ℕ) (h1 : 962 ≤ n) (h2 : n ≤ 1442) :
    c2Output n = if n = 962 then 1 / 2 else 0 := by
  rw [c2Output_recurrence n (by omega)]
  have hm1 : 481 ≤ n - 481 := by omega
  have hm2 : n - 481 ≤ 961 := by omega
  rw [c2Output_band1 (n - 481) hm1 hm2]
  have himp : combImpulse (n - 481) = 0 := by
    have : n - 481 ≠ 0 := by omega
    simp [combImpulse, this]
  rw [himp]
  by_cases hn : n = 962
  · subst hn
    norm_num
  · have : n - 481 ≠ 481 := by omega
    simp [this, hn]

lemma c2Output_1443 : c2Output 1443 = 1 / 4 := by
  rw [c2Output_recurrence 1443 (by norm_num)]
  show combImpulse 962 + c2Output 962 * (1 / 2) = 1 / 4
  rw [c2Output_band2 962 (le_refl 962) (by norm_num)]
  simp [combImpulse]
  norm_num

lemma c2Output_closed_form (n : ℕ) (h : n ≤ 1443) :
    c2Output n = if n = 481 then 1 else if n = 962 then 1 / 2
      else if n = 1443 then 1 / 4 else 0 := by
  rcases le_or_lt n 480 with h0 | h0
  · have : n ≠ 481 := by omega
    have h2 : n ≠ 962 := by omega
    have h3 : n ≠ 1443 := by omega
    rw [c2Output_early n h0]
    simp [this, h2, h3]
  · rcases le_or_lt n 961 with h1 | h1
    · have h2 : n ≠ 962 := by omega
      have h3 : n ≠ 1443 := by omega
      rw [c2Output_band1 n (by omega) h1]
      simp [h2, h3]
    · rcases le_or_lt n 1442 with h2 | h2
      · have h3 : n ≠ 481 := by omega
        have h4 : n ≠ 1443 := by omega
        rw [c2Output_band2 n (by omega) h2]
        simp [h3, h4]
      · have h3 : n = 1443 := by omega
        subst h3
        rw [c2Output_1443]
        simp

/-- C2 counterexample: in the end-to-end scenario (sample rate 48000,
delayTime 0.01, feedback 0.5, unit impulse on channel 0) the output at
sample index 480 is 0, not 1 as claimed: the delay-line cursor advances
after the write, so the first echo emerges one sample later, at index
481. -/
theorem c2_counterexample :
    c2Output 480 = 0 ∧ c2Output 480 ≠ 1 := by
  have h := c2Output_early 480 (le_refl 480)
  exact ⟨h, by rw [h]; norm_num⟩

/-- C2 amended: the scenario impulse produces output 1 at sample index
481, 1/2 at index 962, 1/4 at index 1443, and 0 at every other index up
to 1443: decaying echoes one sample after each multiple of the 480
sample delay, because the value written at step n is first readable at
step n + 481. -/
theorem c2_comb_impulse_response :
    c2Output 481 = 1 ∧ c2Output 962 = 1 / 2 ∧ c2Output 1443 = 1 / 4
    ∧ ∀ n, n ≤ 1443 → n ≠ 481 → n ≠ 962 → n ≠ 1443 → c2Output n = 0 := by
  refine ⟨?_, ?_, c2Output_1443, ?_⟩
  · rw [c2Output_closed_form 481 (by norm_num)]
    simp
  · rw [c2Output_closed_form 962 (by norm_num)]
    simp
  · intro n hn h1 h2 h3
    rw [c2Output_closed_form n hn]
    simp [h1, h2, h3]

/-- Witness for C2 at sample index 0, where the amended claim yields a
zero output. -/
theorem c2_comb_impulse_response_witness :
    (0 : ℕ) ≤ 1443 ∧ c2Output 0 = 0 :=
  ⟨by norm_num,
   c2_comb_impulse_response.2.2.2 0 (by norm_num) (by norm_num) (by norm_num)
     (by norm_num)⟩

end Tone
